import Mathlib

/-!
Shallow embedding of the ClaudeDesktopCommander terminal-session core
(`src/py/desktop_commander/terminal_manager.py`, `command_manager.py`,
`tools/execute.py`, `tools/filesystem.py`) and proofs checking the design
specification's claims against it.

Python's insertion-ordered `dict` objects are modelled as association lists
(`List (Nat × α)`); OS-level effects (spawning, signals, wall-clock time,
non-blocking drains) are parameters of the embedded operations.
-/

namespace DesktopCommander

universe u
variable {α : Type u}

/-- Membership `k in d` on a Python dict. -/
def dictContains (k : Nat) (d : List (Nat × α)) : Bool :=
  d.any (fun e => e.1 == k)

/-- Lookup `d[k]` / `d.get(k)` on a Python dict. -/
def dictGet (k : Nat) (d : List (Nat × α)) : Option α :=
  (d.find? (fun e => e.1 == k)).map (fun e => e.2)

/-- Assignment `d[k] = v` on a Python dict: update in place when the key is present,
append at the end otherwise (dicts preserve insertion order). -/
def dictInsert (k : Nat) (v : α) (d : List (Nat × α)) : List (Nat × α) :=
  if dictContains k d then d.map (fun e => if e.1 == k then (k, v) else e)
  else d ++ [(k, v)]

/-- Deletion `del d[k]` on a Python dict: keys of a dict are unique, so dropping every
entry with key `k` removes exactly the one binding. -/
def dictErase (k : Nat) (d : List (Nat × α)) : List (Nat × α) :=
  d.filter (fun e => e.1 != k)

/-- Python `str(x)` on an `Optional[int]`. -/
def pyStr : Option Int → String
  | none => "None"
  | some i => toString i

/-! ### Python string primitives, implemented over the character list -/

/-- Python `str.lower()` (the inputs here are ASCII). -/
def pyLower (s : String) : String := String.mk (s.data.map Char.toLower)

/-- Python `str.strip()` with no argument: drop surrounding whitespace. -/
def pyStrip (s : String) : String :=
  String.mk (((s.data.dropWhile Char.isWhitespace).reverse.dropWhile
    Char.isWhitespace).reverse)

/-- Character-list core of Python `str.startswith`. -/
def charsStartWith : List Char → List Char → Bool
  | _, [] => true
  | [], _ :: _ => false
  | c :: s, p :: ps => c == p && charsStartWith s ps

/-- Python `s.startswith(pre)`. -/
def pyStartswith (s pre : String) : Bool := charsStartWith s.data pre.data

/-- Python `s.endswith(suf)`. -/
def pyEndswith (s suf : String) : Bool :=
  charsStartWith s.data.reverse suf.data.reverse

/-- Character-list core of Python `str.split(sep)`: split at every
separator occurrence, keeping empty pieces. -/
def splitSepAux (sep : Char) : List Char → List Char → List String
  | [], cur => [String.mk cur.reverse]
  | c :: rest, cur =>
      if c == sep then
        String.mk cur.reverse :: splitSepAux sep rest []
      else splitSepAux sep rest (c :: cur)

/-- Python `s.split(sep)` for a one-character separator. -/
def pySplitSep (sep : Char) (s : String) : List String :=
  splitSepAux sep s.data []

/-! ### Data model (`types.py`) -/

/-- Model of `TerminalSession` from `types.py`. The `process` handle is not data; the
process's behaviour is a parameter of `execute_command`. Timestamps are
abstract ticks. -/
structure TerminalSession where
  pid : Nat
  last_output : String
  is_blocked : Bool
  start_time : Nat
deriving Repr, DecidableEq

/-- Model of `CompletedSession` from `types.py`. -/
structure CompletedSession where
  pid : Nat
  output : String
  exit_code : Option Int
  start_time : Nat
  end_time : Nat
deriving Repr, DecidableEq

/-- Model of `CommandExecutionResult` from `types.py`. -/
structure CommandExecutionResult where
  pid : Nat
  output : String
  is_blocked : Bool
deriving Repr, DecidableEq

/-- Model of `ActiveSession` from `types.py` (`runtime` in milliseconds). -/
structure ActiveSession where
  pid : Nat
  is_blocked : Bool
  runtime : Nat
deriving Repr, DecidableEq

/-- The two stores owned by `TerminalManager.__init__`. -/
structure TMState where
  sessions : List (Nat × TerminalSession)
  completed : List (Nat × CompletedSession)
deriving Repr, DecidableEq

/-- A fresh `TerminalManager()`: both dicts empty. -/
def TMState.init : TMState := ⟨[], []⟩

/-! ### Process behaviour parameter of `execute_command`

The polling loop's interaction with the child process during one
`execute_command` call: the successive non-blocking drains
`(stdout_data, stderr_data)` the loop observed, and then either the poll
seeing the exit (with the final `communicate()` drain and exit code)
before the timeout window closed, or the window expiring first. -/

inductive ProcOutcome where
  | completes (finalStdout finalStderr : String) (exitCode : Option Int)
  | timesOut
deriving Repr, DecidableEq

structure ProcBehavior where
  chunks : List (String × String)
  outcome : ProcOutcome
deriving Repr, DecidableEq

/-! ### `TerminalManager` (`terminal_manager.py`) -/

/-- Accumulation of the polling loop's two output accumulators over the
drained chunks: `output` (the local variable returned to the caller) and
`session.last_output` both receive every drained chunk, `stdout_data` then
`stderr_data` (lines 89-99). -/
def drainAcc (chunks : List (String × String)) : String × String :=
  chunks.foldl (fun (p : String × String) (c : String × String) =>
    (p.1 ++ c.1 ++ c.2, p.2 ++ c.1 ++ c.2)) ("", "")

/-- Lines 75-78 of `terminal_manager.py`: keep only the last 100 completed
sessions by deleting `next(iter(completed_sessions))`, the oldest key. -/
def evictOldest (d : List (Nat × CompletedSession)) :
    List (Nat × CompletedSession) :=
  if d.length > 100 then
    match d.head? with
    | some oldest => dictErase oldest.1 d
    | none => d
  else d

/-- Embedding of `TerminalManager.execute_command`, lines 23-109. `pid` is
the OS-chosen process id, `start`/`now` the spawn and completion
timestamps, `beh` what the child process did during this call's bounded
polling window. On completion (line 61-87) the final `communicate()` drain
is appended to both accumulators, the record stores
`output + session.last_output`, the oldest completed entry is evicted past
100, and the active session is deleted. On timeout it sets
`is_blocked = True` and leaves the session in place. -/
def execute_command (st : TMState) (pid : Nat) (start now : Nat)
    (beh : ProcBehavior) : TMState × CommandExecutionResult :=
  let session0 : TerminalSession := ⟨pid, "", false, start⟩
  let sessions1 := dictInsert pid session0 st.sessions
  let acc := drainAcc beh.chunks
  match beh.outcome with
  | .completes so se ec =>
      let output := acc.1 ++ so ++ se
      let last_output := acc.2 ++ so ++ se
      let comp : CompletedSession :=
        ⟨pid, output ++ last_output, ec, start, now⟩
      (⟨dictErase pid sessions1,
        evictOldest (dictInsert pid comp st.completed)⟩,
       ⟨pid, output, false⟩)
  | .timesOut =>
      let session1 : TerminalSession := ⟨pid, acc.2, true, start⟩
      (⟨dictInsert pid session1 sessions1, st.completed⟩, ⟨pid, acc.1, true⟩)

/-- Embedding of `TerminalManager.get_new_output`, lines 135-153: an active session's
buffer is returned and cleared; a completed session yields a formatted
summary (the record is left in the store); an unknown pid yields `None`. -/
def get_new_output (st : TMState) (pid : Nat) : TMState × Option String :=
  match dictGet pid st.sessions with
  | some session =>
      let output := session.last_output
      let session1 : TerminalSession :=
        ⟨session.pid, "", session.is_blocked, session.start_time⟩
      (⟨dictInsert pid session1 st.sessions, st.completed⟩, some output)
  | none =>
      match dictGet pid st.completed with
      | some completed =>
          let runtime := completed.end_time - completed.start_time
          (st, some ("Process completed with exit code "
            ++ pyStr completed.exit_code
            ++ "\nRuntime: " ++ toString runtime ++ "s\nFinal output:\n"
            ++ completed.output))
      | none => (st, none)

/-- Embedding of `TerminalManager.force_terminate`, lines 155-174: for an unknown pid it
returns `False`; for an active session it sends SIGINT and schedules a
delayed `kill()` — neither of which touches either store — and returns
`True`. Neither store is modified in any case. -/
def force_terminate (st : TMState) (pid : Nat) : TMState × Bool :=
  if dictContains pid st.sessions then (st, true) else (st, false)

/-- Embedding of `TerminalManager.list_active_sessions`, lines 176-186. -/
def list_active_sessions (st : TMState) (now : Nat) : List ActiveSession :=
  st.sessions.map (fun e =>
    ⟨e.2.pid, e.2.is_blocked, (now - e.2.start_time) * 1000⟩)

/-! ### Command Gate (`command_manager.py`) -/

/-- Python `str.split()` with no argument: split on runs of whitespace,
producing no empty tokens. Implemented over the character list. -/
def pySplitAux : List Char → List Char → List String
  | [], [] => []
  | [], cur => [String.mk cur.reverse]
  | c :: rest, cur =>
      if c.isWhitespace then
        match cur with
        | [] => pySplitAux rest []
        | _ :: _ => String.mk cur.reverse :: pySplitAux rest []
      else pySplitAux rest (c :: cur)

def pySplit (s : String) : List String := pySplitAux s.data []

/-- Embedding of `CommandManager.validate_command`, lines 35-38:
`base_command = command.split()[0].lower().strip()`; allowed iff the base
command is not in the blocked set. `command.split()[0]` raises `IndexError`
when the command is empty or all whitespace — modelled as `none`. -/
def validate_command (blocked : List String) (command : String) : Option Bool :=
  match pySplit command with
  | [] => none
  | t :: _ => some (!blocked.contains (pyStrip (pyLower t)))

/-! ### Tool layer (`tools/execute.py`) -/

/-- How `execute_command` in `tools/execute.py` can fail: the explicit
`Exception("Command not allowed: ...")` raised when the gate rejects the
command, or the unhandled `IndexError` escaping from
`CommandManager.validate_command` on an empty command line. -/
inductive ExecError where
  | commandBlocked
  | indexError
deriving Repr, DecidableEq

/-- Outcome of the `execute_command` tool: the manager state afterwards,
whether a child process was spawned, and the result or the raised error. -/
structure ExecOutcome where
  state : TMState
  spawned : Bool
  result : Except ExecError CommandExecutionResult
deriving Repr

/-- Embedding of `execute_command` from `tools/execute.py`, lines 13-35: validates the
command against the gate before any process is spawned, then delegates to
`TerminalManager.execute_command`. -/
def execute_command_tool (blocked : List String) (st : TMState)
    (command : String) (pid : Nat) (start now : Nat) (beh : ProcBehavior) :
    ExecOutcome :=
  match validate_command blocked command with
  | none => ⟨st, false, .error .indexError⟩
  | some false => ⟨st, false, .error .commandBlocked⟩
  | some true =>
      let r := execute_command st pid start now beh
      ⟨r.1, true, .ok r.2⟩

/-- Embedding of `read_output` from `tools/execute.py`, lines 38-49. The no-session
message is a plain (non-f-) string in the source, so the braces are literal
text. An empty new-output string is falsy, so `output or ...` replaces it. -/
def read_output_tool (st : TMState) (pid : Nat) : TMState × String :=
  let r := get_new_output st pid
  let message :=
    match r.2 with
    | none => "No session found for PID \x7bargs.pid\x7d"
    | some output => if output == "" then "No new output available" else output
  (r.1, message)

/-! ### Operation traces over the session manager -/

/-- One observable operation of the session manager, with its OS-supplied
parameters (pid, timestamps, process behaviour). -/
inductive Op where
  | exec (pid start now : Nat) (beh : ProcBehavior)
  | read (pid : Nat)
  | term (pid : Nat)
  | listActive (now : Nat)
deriving Repr, DecidableEq

/-- The state after one operation. -/
def applyOp (st : TMState) : Op → TMState
  | .exec pid start now beh => (execute_command st pid start now beh).1
  | .read pid => (get_new_output st pid).1
  | .term pid => (force_terminate st pid).1
  | .listActive _ => st

/-- The state after a sequence of operations. -/
def runOps (st : TMState) (ops : List Op) : TMState := ops.foldl applyOp st

/-- The spec invariant: no pid is in both the active and the completed store. -/
def PidDisjoint (st : TMState) : Prop :=
  ∀ pid, ¬(dictContains pid st.sessions = true ∧
            dictContains pid st.completed = true)

/-! ### Path Sandbox Validator (`tools/filesystem.py`) -/

/-- POSIX `os.path.isabs`. -/
def isabs (p : String) : Bool := pyStartswith p "/"

/-- Two-argument POSIX `os.path.join`: an absolute second component
discards the first. -/
def pjoin (a b : String) : String :=
  if isabs b then b
  else if a == "" || pyEndswith a "/" then a ++ b
  else a ++ "/" ++ b

/-- Component processing of POSIX `os.path.normpath`: drop empty and `.`
components; `..` pops a previous component unless at the root or following
an unpopped `..`. -/
def normComps (initialSlashes : Bool) : List String → List String → List String
  | acc, [] => acc.reverse
  | acc, comp :: rest =>
      if comp == "" || comp == "." then normComps initialSlashes acc rest
      else if comp == ".." then
        match acc with
        | [] => if initialSlashes then normComps initialSlashes [] rest
                else normComps initialSlashes [".."] rest
        | prev :: tail =>
            if prev == ".." then normComps initialSlashes (".." :: acc) rest
            else normComps initialSlashes tail rest
      else normComps initialSlashes (comp :: acc) rest

/-- POSIX `os.path.normpath` (double-initial-slash special case included). -/
def normpath (p : String) : String :=
  if p == "" then "."
  else
    let initialSlashes :=
      if pyStartswith p "//" && !pyStartswith p "///" then "//"
      else if pyStartswith p "/" then "/" else ""
    let comps := normComps (initialSlashes != "") [] (pySplitSep '/' p)
    let joined := initialSlashes ++ String.intercalate "/" comps
    if joined == "" then "." else joined

/-- POSIX `os.path.abspath` with the working directory as a parameter. -/
def abspath (cwd p : String) : String :=
  if isabs p then normpath p else normpath (pjoin cwd p)

/-- The filesystem facts `_validate_path` consults for its symlink check. -/
structure FS where
  pathExists : String → Bool
  islink : String → Bool
  realpath : String → String

/-- A filesystem with no entries (every existence test fails). -/
def FS.empty : FS := ⟨fun _ => false, fun _ => false, fun p => p⟩

/-- Embedding of `normalize_path` from `tools/filesystem.py` lines 39-40:
`os.path.normpath(p).lower()`. -/
def normalize_path (p : String) : String := pyLower (normpath p)

/-- Embedding of `_validate_path` from `tools/filesystem.py`, lines 15-66, with the
user's home directory and working directory as parameters. The allowed
directories are hard-coded to `[os.getcwd(), os.path.expanduser("~")]`.
`~`-expansion joins the home directory with `requested_path[1:]` (only the
`~` stripped). Containment is `normalized.startswith(normalize_path(dir))`
with no separator-boundary check. Returns the absolute path, or the raised
exception's message. -/
def validate_path (fs : FS) (cwd home : String) (requested_path : String) :
    Except String String :=
  let allowed_directories := [cwd, home]
  let expanded_path :=
    if pyStartswith requested_path "~/" || requested_path == "~" then
      pjoin home (if requested_path != "~" then requested_path.drop 1 else "")
    else requested_path
  let absolute :=
    if isabs expanded_path then abspath cwd expanded_path
    else abspath cwd (pjoin cwd expanded_path)
  let normalized_requested := normalize_path absolute
  let is_allowed := allowed_directories.any
    (fun dir => pyStartswith normalized_requested (normalize_path dir))
  if !is_allowed then
    .error ("Access denied - path outside allowed directories: " ++ absolute)
  else if fs.pathExists absolute && fs.islink absolute then
    let real_path := fs.realpath absolute
    let normalized_real := normalize_path real_path
    let is_real_allowed := allowed_directories.any
      (fun dir => pyStartswith normalized_real (normalize_path dir))
    if !is_real_allowed then
      .error "Access denied - symlink target outside allowed directories"
    else .ok absolute
  else .ok absolute

/-- Freshness of the OS-chosen pids along a trace: each spawned pid is
absent from both stores at spawn time. The OS cannot hand out the pid of a
live or still-unreaped child (those hold the pid), so the substantive part
is that pids of already-reaped completed sessions are not reused. -/
def FreshSpawns : TMState → List Op → Prop
  | _, [] => True
  | st, op :: rest =>
      (match op with
       | .exec pid _ _ _ =>
           dictContains pid st.sessions = false ∧
           dictContains pid st.completed = false
       | _ => True) ∧ FreshSpawns (applyOp st op) rest

/-- An `execute` call whose child exits within the window printing `done`. -/
def mkCompletion (pid : Nat) : Op :=
  .exec pid 0 0 ⟨[], .completes "done" "" (some 0)⟩

/-- The completed record that `mkCompletion pid` leaves in the store (the
stored output is doubled by `output + session.last_output`). -/
def completionOf (pid : Nat) : CompletedSession :=
  ⟨pid, "donedone", some 0, 0, 0⟩

/-- Completed-store contents for a list of completed pids, in order. -/
def entriesOf (pids : List Nat) : List (Nat × CompletedSession) :=
  pids.map (fun p => (p, completionOf p))

/-- Last `n` elements of a list. -/
def lastN (n : Nat) (l : List α) : List α := l.drop (l.length - n)

/-! ### Dictionary lemmas -/

theorem dictContains_true_iff {k : Nat} {d : List (Nat × α)} :
    dictContains k d = true ↔ ∃ e ∈ d, e.1 = k := by
  simp [dictContains, List.any_eq_true]

theorem dictContains_false_iff {k : Nat} {d : List (Nat × α)} :
    dictContains k d = false ↔ ∀ e ∈ d, e.1 ≠ k := by
  rw [← Bool.not_eq_true, dictContains_true_iff]
  push_neg
  rfl

theorem dictGet_contains {k : Nat} {d : List (Nat × α)} {v : α}
    (h : dictGet k d = some v) : dictContains k d = true := by
  unfold dictGet at h
  rcases Option.map_eq_some'.mp h with ⟨e, hfind, _⟩
  exact dictContains_true_iff.mpr
    ⟨e, List.mem_of_find?_eq_some hfind, by simpa using List.find?_some hfind⟩

theorem dictGet_eq_none {k : Nat} {d : List (Nat × α)}
    (h : dictContains k d = false) : dictGet k d = none := by
  unfold dictGet
  rw [List.find?_eq_none.mpr]
  · rfl
  · intro e he
    simpa using dictContains_false_iff.mp h e he

theorem dictContains_insert_self (k : Nat) (v : α) (d : List (Nat × α)) :
    dictContains k (dictInsert k v d) = true := by
  unfold dictInsert
  split
  · next h =>
      rcases dictContains_true_iff.mp h with ⟨e, he, hek⟩
      exact dictContains_true_iff.mpr
        ⟨(k, v), List.mem_map.mpr ⟨e, he, by simp [hek]⟩, rfl⟩
  · exact dictContains_true_iff.mpr ⟨(k, v), by simp, rfl⟩

theorem dictContains_insert_true {q k : Nat} {v : α} {d : List (Nat × α)}
    (h : dictContains q (dictInsert k v d) = true) :
    q = k ∨ dictContains q d = true := by
  by_cases hq : q = k
  · exact Or.inl hq
  right
  unfold dictInsert at h
  split at h
  · rcases dictContains_true_iff.mp h with ⟨e, he, heq⟩
    rcases List.mem_map.mp he with ⟨e0, he0, hfe⟩
    refine dictContains_true_iff.mpr ⟨e0, he0, ?_⟩
    by_cases h0 : e0.1 = k
    · rw [← hfe] at heq
      simp [h0] at heq
      exact absurd heq.symm hq
    · rw [← hfe] at heq
      simpa [h0] using heq
  · rcases dictContains_true_iff.mp h with ⟨e, he, heq⟩
    rcases List.mem_append.mp he with he1 | he1
    · exact dictContains_true_iff.mpr ⟨e, he1, heq⟩
    · simp at he1
      rw [he1] at heq
      exact absurd heq.symm hq

theorem dictContains_erase_true {q k : Nat} {d : List (Nat × α)}
    (h : dictContains q (dictErase k d) = true) : dictContains q d = true := by
  rcases dictContains_true_iff.mp h with ⟨e, he, heq⟩
  exact dictContains_true_iff.mpr ⟨e, (List.mem_filter.mp he).1, heq⟩

theorem dictContains_erase_self {k : Nat} {d : List (Nat × α)}
    (h : dictContains k (dictErase k d) = true) : False := by
  rcases dictContains_true_iff.mp h with ⟨e, he, heq⟩
  have hne := (List.mem_filter.mp he).2
  rw [bne_iff_ne] at hne
  exact hne heq

theorem dictInsert_fresh {k : Nat} {d : List (Nat × α)}
    (h : dictContains k d = false) (v : α) :
    dictInsert k v d = d ++ [(k, v)] := by
  simp [dictInsert, h]

theorem dictErase_eq_self {k : Nat} {d : List (Nat × α)}
    (h : ∀ e ∈ d, e.1 ≠ k) : dictErase k d = d := by
  apply List.filter_eq_self.mpr
  intro e he
  simpa [bne_iff_ne] using h e he

theorem find?_map_update {k : Nat} {v : α} :
    ∀ d : List (Nat × α), dictContains k d = true →
      (d.map (fun e => if e.1 == k then (k, v) else e)).find?
          (fun e => e.1 == k) = some (k, v)
  | [], h => by simp [dictContains] at h
  | e :: d, h => by
      by_cases h0 : e.1 = k
      · simp [h0]
      · have h1 : dictContains k d = true := by
          rcases dictContains_true_iff.mp h with ⟨e', he', heq⟩
          rcases List.mem_cons.mp he' with rfl | he2
          · exact absurd heq h0
          · exact dictContains_true_iff.mpr ⟨e', he2, heq⟩
        simpa [h0] using find?_map_update d h1

theorem find?_append_last {k : Nat} (v : α) :
    ∀ d : List (Nat × α), (∀ e ∈ d, e.1 ≠ k) →
      (d ++ [(k, v)]).find? (fun e => e.1 == k) = some (k, v)
  | [], _ => by simp
  | e :: d, h => by
      have he := h e (by simp)
      simpa [he] using find?_append_last v d (fun e' he' => h e' (by simp [he']))

theorem dictGet_insert_self (k : Nat) (v : α) (d : List (Nat × α)) :
    dictGet k (dictInsert k v d) = some v := by
  unfold dictInsert
  split
  · next h =>
      unfold dictGet
      rw [find?_map_update d h]
      rfl
  · next h =>
      unfold dictGet
      rw [find?_append_last v d (dictContains_false_iff.mp (by simpa using h))]
      rfl

/-! ### Claim C3: sandbox containment check -/

/-- C3: the containment test in `_validate_path` is a plain `startswith`
with no separator-boundary check. With allow-list `["/home/user"]` (working
and home directory both `/home/user`), the request `/home/userx` is
accepted and returned, where the claim requires an `AccessDenied` failure. -/
theorem validate_path_boundary_bug :
    validate_path FS.empty "/home/user" "/home/user" "/home/userx"
      = .ok "/home/userx" := rfl

/-! ### Claim C4: home-directory expansion -/

/-- C4: expanding `~/docs/notes.txt` joins the home directory with
`requested_path[1:] = "/docs/notes.txt"`, and `os.path.join` discards the
first component before an absolute second one, so with home directory
`/home/u` and allow-list `["/home/u"]` the validator resolves the request
to `/docs/notes.txt` and rejects it, where the claim requires success with
`/home/u/docs/notes.txt`. -/
theorem validate_path_tilde_bug :
    validate_path FS.empty "/home/u" "/home/u" "~/docs/notes.txt"
      = .error "Access denied - path outside allowed directories: /docs/notes.txt" :=
  rfl

/-! ### Claim C7: recorded output of a completed command -/

/-- C7: a command whose entire output is `hi` (one non-blocking drain,
empty final drain, exit code 0, no intervening reads) is recorded with
`output + session.last_output = "hihi"`: every byte of the produced output
appears twice in the stored `CompletedSession`, not once as the claim
states, while the result returned to the caller carries `hi` once. -/
theorem completed_output_doubled :
    execute_command TMState.init 5 0 3 ⟨[("hi", "")], .completes "" "" (some 0)⟩
      = (⟨[], [(5, ⟨5, "hihi", some 0, 0, 3⟩)]⟩, ⟨5, "hi", false⟩) := rfl

/-! ### Claim C8: blocked commands are rejected before spawning -/

/-- C8: when the lower-cased (and stripped) first whitespace-delimited
token of the command line is in the blocked set, the execute tool fails
with `CommandBlocked`, spawns no child process, and leaves both stores
unchanged. -/
theorem blocked_command_rejected (blocked : List String) (st : TMState)
    (command t : String) (rest : List String) (pid start now : Nat)
    (beh : ProcBehavior)
    (hsplit : pySplit command = t :: rest)
    (hmem : blocked.contains (pyStrip (pyLower t)) = true) :
    execute_command_tool blocked st command pid start now beh
      = ⟨st, false, .error .commandBlocked⟩ := by
  have hv : validate_command blocked command = some false := by
    unfold validate_command
    rw [hsplit]
    show some (!blocked.contains (pyStrip (pyLower t))) = some false
    rw [hmem]
    rfl
  unfold execute_command_tool
  rw [hv]

/-- C8 witness: with blocked set `["rm"]`, the command line `RM -rf x` is
rejected with `CommandBlocked` and no state change. -/
theorem blocked_command_rejected_witness :
    pySplit "RM -rf x" = "RM" :: ["-rf", "x"] ∧
    (["rm"].contains (pyStrip (pyLower "RM")) = true) ∧
    execute_command_tool ["rm"] TMState.init "RM -rf x" 5 0 0 ⟨[], .timesOut⟩
      = ⟨TMState.init, false, .error .commandBlocked⟩ :=
  ⟨rfl, rfl, blocked_command_rejected ["rm"] TMState.init "RM -rf x" "RM"
    ["-rf", "x"] 5 0 0 ⟨[], .timesOut⟩ rfl rfl⟩

/-! ### Claim C10: empty command crashes the gate -/

theorem pySplitAux_all_ws :
    ∀ l : List Char, (∀ c ∈ l, c.isWhitespace = true) → pySplitAux l [] = []
  | [], _ => rfl
  | c :: rest, h => by
      have hc : c.isWhitespace = true := h c (by simp)
      simp only [pySplitAux, hc, if_pos]
      exact pySplitAux_all_ws rest (fun c' hc' => h c' (by simp [hc']))

/-- C10: on an empty or all-whitespace command line, `command.split()` is
empty, so `command.split()[0]` in `CommandManager.validate_command` raises
`IndexError`; the execute tool propagates the unhandled exception instead
of returning a boolean verdict or a `CommandBlocked` error. -/
theorem empty_command_index_error (blocked : List String) (st : TMState)
    (command : String) (pid start now : Nat) (beh : ProcBehavior)
    (h : ∀ c ∈ command.data, c.isWhitespace = true) :
    validate_command blocked command = none ∧
    execute_command_tool blocked st command pid start now beh
      = ⟨st, false, .error .indexError⟩ := by
  have hv : validate_command blocked command = none := by
    unfold validate_command pySplit
    rw [pySplitAux_all_ws command.data h]
  refine ⟨hv, ?_⟩
  unfold execute_command_tool
  rw [hv]

/-- C10 witness: the two-space command line crashes the gate with
`IndexError`. -/
theorem empty_command_index_error_witness :
    (∀ c ∈ ("  " : String).data, c.isWhitespace = true) ∧
    (validate_command [] "  " = none ∧
      execute_command_tool [] TMState.init "  " 1 0 0 ⟨[], .timesOut⟩
        = ⟨TMState.init, false, .error .indexError⟩) :=
  ⟨by decide, empty_command_index_error [] TMState.init "  " 1 0 0
    ⟨[], .timesOut⟩ (by decide)⟩

/-! ### Claim C2: forceTerminate does not record a completion -/

/-- C2 counterexample: from the reachable state after `execute` times out
on pid 9, `forceTerminate(9)` returns true but inserts nothing into the
completed store and leaves pid 9 in the active store — the completion
record and active-session removal the claim requires never happen. -/
theorem force_terminate_no_completion_cex :
    (force_terminate (runOps TMState.init [.exec 9 0 0 ⟨[], .timesOut⟩]) 9).2
      = true ∧
    (force_terminate (runOps TMState.init [.exec 9 0 0 ⟨[], .timesOut⟩]) 9).1
      = runOps TMState.init [.exec 9 0 0 ⟨[], .timesOut⟩] ∧
    dictContains 9 (force_terminate (runOps TMState.init
      [.exec 9 0 0 ⟨[], .timesOut⟩]) 9).1.sessions = true ∧
    dictContains 9 (force_terminate (runOps TMState.init
      [.exec 9 0 0 ⟨[], .timesOut⟩]) 9).1.completed = false :=
  ⟨rfl, rfl, rfl, rfl⟩

/-- C2 amended: `forceTerminate` on an active pid returns true and only
signals the process (SIGINT, then a scheduled kill); it neither inserts a
`CompletedSession` nor removes the active session — both stores are
returned unchanged. The move to the completed store happens only when an
`execute` poll loop observes the exit. -/
theorem force_terminate_signals_only (st : TMState) (pid : Nat)
    (h : dictContains pid st.sessions = true) :
    force_terminate st pid = (st, true) := by
  simp [force_terminate, h]

/-- C2 witness: a store with one active session, pid 9. -/
theorem force_terminate_signals_only_witness :
    dictContains 9 (⟨[(9, ⟨9, "", true, 0⟩)], []⟩ : TMState).sessions = true ∧
    force_terminate ⟨[(9, ⟨9, "", true, 0⟩)], []⟩ 9
      = (⟨[(9, ⟨9, "", true, 0⟩)], []⟩, true) :=
  ⟨rfl, force_terminate_signals_only ⟨[(9, ⟨9, "", true, 0⟩)], []⟩ 9 rfl⟩

/-! ### Claim C1: reading a completed session does not remove it -/

/-- C1 counterexample: after a command completes on pid 7, a first
successful `readOutput(7)` returns the completed summary, but the record
stays in the completed store and an immediately following `readOutput(7)`
returns the same summary again instead of `SessionNotFound`. -/
theorem read_completed_not_removed_cex :
    (get_new_output (runOps TMState.init
        [.exec 7 0 3 ⟨[("hi", "")], .completes "" "" (some 0)⟩]) 7).2
      = some "Process completed with exit code 0\nRuntime: 3s\nFinal output:\nhihi" ∧
    dictContains 7 (get_new_output (runOps TMState.init
        [.exec 7 0 3 ⟨[("hi", "")], .completes "" "" (some 0)⟩]) 7).1.completed
      = true ∧
    (get_new_output (get_new_output (runOps TMState.init
        [.exec 7 0 3 ⟨[("hi", "")], .completes "" "" (some 0)⟩]) 7).1 7).2
      = some "Process completed with exit code 0\nRuntime: 3s\nFinal output:\nhihi" :=
  ⟨rfl, rfl, rfl⟩

/-- C1 amended: `readOutput` on a pid with a completed record (and no
active session) returns the formatted summary and leaves the store
unchanged; a second read returns the very same summary — completed
sessions are removed only by FIFO eviction, not by reading. -/
theorem read_completed_keeps_record (st : TMState) (pid : Nat)
    (c : CompletedSession)
    (hs : dictContains pid st.sessions = false)
    (hc : dictGet pid st.completed = some c) :
    get_new_output st pid
      = (st, some ("Process completed with exit code " ++ pyStr c.exit_code
          ++ "\nRuntime: " ++ toString (c.end_time - c.start_time)
          ++ "s\nFinal output:\n" ++ c.output)) ∧
    (get_new_output (get_new_output st pid).1 pid).2
      = (get_new_output st pid).2 := by
  have hg : dictGet pid st.sessions = none := dictGet_eq_none hs
  have h1 : get_new_output st pid
      = (st, some ("Process completed with exit code " ++ pyStr c.exit_code
          ++ "\nRuntime: " ++ toString (c.end_time - c.start_time)
          ++ "s\nFinal output:\n" ++ c.output)) := by
    unfold get_new_output
    rw [hg, hc]
  refine ⟨h1, ?_⟩
  rw [h1]
  exact congrArg Prod.snd h1

/-- C1 witness: a store holding only the completed record of pid 7. -/
theorem read_completed_keeps_record_witness :
    dictContains 7 (⟨[], [(7, ⟨7, "out", some 0, 2, 5⟩)]⟩ : TMState).sessions
      = false ∧
    dictGet 7 (⟨[], [(7, ⟨7, "out", some 0, 2, 5⟩)]⟩ : TMState).completed
      = some ⟨7, "out", some 0, 2, 5⟩ ∧
    (get_new_output ⟨[], [(7, ⟨7, "out", some 0, 2, 5⟩)]⟩ 7
        = (⟨[], [(7, ⟨7, "out", some 0, 2, 5⟩)]⟩,
            some "Process completed with exit code 0\nRuntime: 3s\nFinal output:\nout") ∧
      (get_new_output
          (get_new_output ⟨[], [(7, ⟨7, "out", some 0, 2, 5⟩)]⟩ 7).1 7).2
        = (get_new_output ⟨[], [(7, ⟨7, "out", some 0, 2, 5⟩)]⟩ 7).2) :=
  ⟨rfl, rfl, read_completed_keeps_record ⟨[], [(7, ⟨7, "out", some 0, 2, 5⟩)]⟩
    7 ⟨7, "out", some 0, 2, 5⟩ rfl rfl⟩

/-! ### Claim C9: readOutput contract -/

/-- C9: `readOutput` on an active pid returns the buffered output (with the
explicit no-new-output indicator when the buffer is empty), clears the
buffer so that an immediate second read reports no new output, and never
fails; on a pid unknown to both stores it reports the no-session message
(the source's message is a plain string, so the braces are literal). -/
theorem read_output_contract :
    (∀ (st : TMState) (pid : Nat) (s : TerminalSession),
      dictGet pid st.sessions = some s →
        read_output_tool st pid
          = (⟨dictInsert pid ⟨s.pid, "", s.is_blocked, s.start_time⟩
                st.sessions, st.completed⟩,
              if s.last_output == "" then "No new output available"
              else s.last_output) ∧
        (read_output_tool (read_output_tool st pid).1 pid).2
          = "No new output available") ∧
    (∀ (st : TMState) (pid : Nat),
      dictContains pid st.sessions = false →
      dictContains pid st.completed = false →
        read_output_tool st pid
          = (st, "No session found for PID \x7bargs.pid\x7d")) := by
  constructor
  · intro st pid s hs
    have h1 : read_output_tool st pid
        = (⟨dictInsert pid ⟨s.pid, "", s.is_blocked, s.start_time⟩
              st.sessions, st.completed⟩,
            if s.last_output == "" then "No new output available"
            else s.last_output) := by
      unfold read_output_tool get_new_output
      rw [hs]
    refine ⟨h1, ?_⟩
    rw [h1]
    show (read_output_tool
        ⟨dictInsert pid ⟨s.pid, "", s.is_blocked, s.start_time⟩
          st.sessions, st.completed⟩ pid).2 = "No new output available"
    unfold read_output_tool get_new_output
    rw [dictGet_insert_self]
    rfl
  · intro st pid hs hc
    unfold read_output_tool get_new_output
    rw [dictGet_eq_none hs, dictGet_eq_none hc]

/-- C9 witness: an active session with buffered output `abc` on pid 3, and
the unknown pid 4. -/
theorem read_output_contract_witness :
    dictGet 3 (⟨[(3, ⟨3, "abc", false, 0⟩)], []⟩ : TMState).sessions
      = some ⟨3, "abc", false, 0⟩ ∧
    (read_output_tool ⟨[(3, ⟨3, "abc", false, 0⟩)], []⟩ 3
        = (⟨[(3, ⟨3, "", false, 0⟩)], []⟩, "abc") ∧
      (read_output_tool
          (read_output_tool ⟨[(3, ⟨3, "abc", false, 0⟩)], []⟩ 3).1 3).2
        = "No new output available") ∧
    read_output_tool ⟨[(3, ⟨3, "abc", false, 0⟩)], []⟩ 4
      = (⟨[(3, ⟨3, "abc", false, 0⟩)], []⟩,
          "No session found for PID \x7bargs.pid\x7d") :=
  ⟨rfl,
    read_output_contract.1 ⟨[(3, ⟨3, "abc", false, 0⟩)], []⟩ 3
      ⟨3, "abc", false, 0⟩ rfl,
    read_output_contract.2 ⟨[(3, ⟨3, "abc", false, 0⟩)], []⟩ 4 rfl rfl⟩

/-! ### Claim C5: pid appears in at most one store -/

theorem exec_completes_state (st : TMState) (pid start now : Nat)
    (chunks : List (String × String)) (so se : String) (ec : Option Int) :
    (execute_command st pid start now ⟨chunks, .completes so se ec⟩).1
      = ⟨dictErase pid (dictInsert pid ⟨pid, "", false, start⟩ st.sessions),
          evictOldest (dictInsert pid
            ⟨pid, ((drainAcc chunks).1 ++ so ++ se)
                ++ ((drainAcc chunks).2 ++ so ++ se), ec, start, now⟩
            st.completed)⟩ := rfl

theorem exec_timesOut_state (st : TMState) (pid start now : Nat)
    (chunks : List (String × String)) :
    (execute_command st pid start now ⟨chunks, .timesOut⟩).1
      = ⟨dictInsert pid ⟨pid, (drainAcc chunks).2, true, start⟩
            (dictInsert pid ⟨pid, "", false, start⟩ st.sessions),
          st.completed⟩ := rfl

theorem dictContains_evict_true {q : Nat} {d : List (Nat × CompletedSession)}
    (h : dictContains q (evictOldest d) = true) : dictContains q d = true := by
  unfold evictOldest at h
  split at h
  · split at h
    · exact dictContains_erase_true h
    · exact h
  · exact h

theorem get_new_output_active {st : TMState} {pid : Nat}
    {s : TerminalSession} (h : dictGet pid st.sessions = some s) :
    get_new_output st pid
      = (⟨dictInsert pid ⟨s.pid, "", s.is_blocked, s.start_time⟩ st.sessions,
            st.completed⟩, some s.last_output) := by
  unfold get_new_output
  rw [h]

theorem get_new_output_inactive {st : TMState} {pid : Nat}
    (h : dictGet pid st.sessions = none) :
    (get_new_output st pid).1 = st := by
  unfold get_new_output
  rw [h]
  cases h2 : dictGet pid st.completed <;> rfl

/-- Preservation of store disjointness by one operation, provided an
`execute` spawn receives a pid absent from both stores. -/
theorem pidDisjoint_applyOp (st : TMState) (op : Op) (hD : PidDisjoint st)
    (hfresh : match op with
      | .exec pid _ _ _ =>
          dictContains pid st.sessions = false ∧
          dictContains pid st.completed = false
      | _ => True) :
    PidDisjoint (applyOp st op) := by
  cases op with
  | exec pid start now beh =>
      obtain ⟨hs, hc⟩ := hfresh
      obtain ⟨chunks, outcome⟩ := beh
      cases outcome with
      | completes so se ec =>
          intro q hq
          obtain ⟨hq1, hq2⟩ := hq
          dsimp only [applyOp] at hq1 hq2
          rw [exec_completes_state] at hq1 hq2
          by_cases hqp : q = pid
          · subst hqp
            exact dictContains_erase_self hq1
          · have hq1s : dictContains q st.sessions = true := by
              rcases dictContains_insert_true (dictContains_erase_true hq1)
                with h | h
              · exact absurd h hqp
              · exact h
            have hq2c : dictContains q st.completed = true := by
              rcases dictContains_insert_true (dictContains_evict_true hq2)
                with h | h
              · exact absurd h hqp
              · exact h
            exact hD q ⟨hq1s, hq2c⟩
      | timesOut =>
          intro q hq
          obtain ⟨hq1, hq2⟩ := hq
          dsimp only [applyOp] at hq1 hq2
          rw [exec_timesOut_state] at hq1 hq2
          by_cases hqp : q = pid
          · subst hqp
            rw [hq2] at hc
            exact Bool.noConfusion hc
          · have hq1s : dictContains q st.sessions = true := by
              rcases dictContains_insert_true hq1 with h | h
              · exact absurd h hqp
              rcases dictContains_insert_true h with h2 | h2
              · exact absurd h2 hqp
              · exact h2
            exact hD q ⟨hq1s, hq2⟩
  | read pid =>
      intro q hq
      obtain ⟨hq1, hq2⟩ := hq
      dsimp only [applyOp] at hq1 hq2
      cases hg : dictGet pid st.sessions with
      | none =>
          rw [get_new_output_inactive hg] at hq1 hq2
          exact hD q ⟨hq1, hq2⟩
      | some s =>
          rw [get_new_output_active hg] at hq1 hq2
          rcases dictContains_insert_true hq1 with rfl | h
          · exact hD q ⟨dictGet_contains hg, hq2⟩
          · exact hD q ⟨h, hq2⟩
  | term pid =>
      dsimp only [applyOp]
      unfold force_terminate
      split <;> exact hD
  | listActive now =>
      exact hD

/-- C5 counterexample: the claim fails when the OS reuses the pid of an
already-reaped completed session. Pid 5 completes (entering the completed
store), then a new spawn receives pid 5 again and times out: pid 5 is now
in the active store and still in the completed store, violating the
at-most-one invariant after an ordinary operation. -/
theorem pid_in_both_stores_cex :
    ¬ PidDisjoint (runOps TMState.init
      [.exec 5 0 0 ⟨[], .completes "" "" (some 0)⟩,
       .exec 5 1 1 ⟨[], .timesOut⟩]) :=
  fun h => h 5 ⟨rfl, rfl⟩

theorem pidDisjoint_runOps :
    ∀ (ops : List Op) (st : TMState), PidDisjoint st → FreshSpawns st ops →
      PidDisjoint (runOps st ops)
  | [], _, hD, _ => hD
  | op :: rest, st, hD, hF =>
      pidDisjoint_runOps rest (applyOp st op)
        (pidDisjoint_applyOp st op hD hF.1) hF.2

/-- C5 amended: provided every spawn receives a pid absent from both
stores (no reuse of a completed session's pid; the OS itself guarantees
absence from the active store), every operation of the session manager
preserves the invariant that a pid is in at most one of the active and
completed stores. -/
theorem pid_disjoint_invariant (ops : List Op) (st : TMState)
    (hD : PidDisjoint st) (hF : FreshSpawns st ops) :
    PidDisjoint (runOps st ops) :=
  pidDisjoint_runOps ops st hD hF

/-- C5 witness: a concrete four-operation trace with fresh pids. -/
theorem pid_disjoint_invariant_witness :
    PidDisjoint TMState.init ∧
    FreshSpawns TMState.init
      [.exec 1 0 0 ⟨[("a", "")], .completes "b" "" (some 0)⟩,
       .exec 2 0 0 ⟨[], .timesOut⟩, .read 1, .term 2, .listActive 9] ∧
    PidDisjoint (runOps TMState.init
      [.exec 1 0 0 ⟨[("a", "")], .completes "b" "" (some 0)⟩,
       .exec 2 0 0 ⟨[], .timesOut⟩, .read 1, .term 2, .listActive 9]) := by
  have hD : PidDisjoint TMState.init := fun _ h => Bool.noConfusion h.1
  have hF : FreshSpawns TMState.init
      [.exec 1 0 0 ⟨[("a", "")], .completes "b" "" (some 0)⟩,
       .exec 2 0 0 ⟨[], .timesOut⟩, .read 1, .term 2, .listActive 9] :=
    ⟨⟨rfl, rfl⟩, ⟨rfl, rfl⟩, trivial, trivial, trivial, trivial⟩
  exact ⟨hD, hF, pid_disjoint_invariant _ TMState.init hD hF⟩

/-! ### Claim C6: FIFO bound of 100 on the completed store -/

theorem entriesOf_keys : ∀ l : List Nat, (entriesOf l).map Prod.fst = l
  | [] => rfl
  | p :: r => by
      show p :: (entriesOf r).map Prod.fst = p :: r
      rw [entriesOf_keys r]

theorem not_contains_entriesOf {k : Nat} {l : List Nat} (h : k ∉ l) :
    dictContains k (entriesOf l) = false := by
  rw [dictContains_false_iff]
  intro e he
  rcases List.mem_map.mp he with ⟨p, hp, rfl⟩
  exact fun hk => h (hk ▸ hp)

theorem dictErase_cons_head {l : List (Nat × α)} (e0 : Nat × α)
    (h : ∀ e ∈ l, e.1 ≠ e0.1) : dictErase e0.1 (e0 :: l) = l := by
  show List.filter _ _ = _
  rw [List.filter_cons_of_neg]
  · exact dictErase_eq_self h
  · simp

theorem lastN_append_one (n : Nat) (l : List α) (x : α) (hn : 0 < n) :
    lastN n (l ++ [x])
      = (if (lastN n l).length = n then (lastN n l).tail else lastN n l)
          ++ [x] := by
  unfold lastN
  by_cases h : n ≤ l.length
  · have hlen : (l.drop (l.length - n)).length = n := by
      rw [List.length_drop]
      omega
    rw [if_pos (by rw [List.length_drop]; omega)]
    rw [List.tail_drop]
    have h1 : (l ++ [x]).length - n = (l.length - n) + 1 := by
      rw [List.length_append]
      simp
      omega
    rw [h1, List.drop_append_of_le_length (by omega)]
  · have h0 : l.length - n = 0 := by omega
    have h1 : (l ++ [x]).length - n = 0 := by
      rw [List.length_append]
      simp
      omega
    rw [if_neg (by rw [List.length_drop]; omega), h0, h1]
    simp

/-- One completing `execute` call on a store of at most 100 completed
sessions: the new record is appended; when the store already held 100
entries the oldest (head) entry is evicted. -/
theorem exec_completion_step (cs : List (Nat × CompletedSession)) (pid : Nat)
    (hfresh : dictContains pid cs = false)
    (hnd : (cs.map Prod.fst).Nodup)
    (hlen : cs.length ≤ 100) :
    applyOp ⟨[], cs⟩ (mkCompletion pid)
      = ⟨[], if cs.length = 100
          then cs.tail ++ [(pid, completionOf pid)]
          else cs ++ [(pid, completionOf pid)]⟩ := by
  dsimp only [applyOp, mkCompletion]
  rw [exec_completes_state]
  show (⟨dictErase pid (dictInsert pid ⟨pid, "", false, 0⟩ []),
      evictOldest (dictInsert pid (completionOf pid) cs)⟩ : TMState) = _
  have hsess : dictErase pid
      (dictInsert pid (⟨pid, "", false, 0⟩ : TerminalSession) []) = [] := by
    simp [dictInsert, dictContains, dictErase]
  rw [hsess, dictInsert_fresh hfresh]
  congr 1
  unfold evictOldest
  by_cases h100 : cs.length = 100
  · have hgt : (cs ++ [(pid, completionOf pid)]).length > 100 := by
      simp [List.length_append]
      omega
    rw [if_pos hgt, if_pos h100]
    obtain ⟨c0, ctail, rfl⟩ : ∃ c0 ctail, cs = c0 :: ctail := by
      cases cs with
      | nil => simp at h100
      | cons a l => exact ⟨a, l, rfl⟩
    have hforall : ∀ e ∈ ctail ++ [(pid, completionOf pid)], e.1 ≠ c0.1 := by
      intro e he
      rcases List.mem_append.mp he with he1 | he1
      · have hnd2 : (c0.1 :: ctail.map Prod.fst).Nodup := hnd
        have hni : c0.1 ∉ ctail.map Prod.fst := (List.nodup_cons.mp hnd2).1
        exact fun hk => hni (hk ▸ List.mem_map_of_mem Prod.fst he1)
      · have hpid : c0.1 ≠ pid :=
          dictContains_false_iff.mp hfresh c0 (by simp)
        simp at he1
        rw [he1]
        exact fun hk => hpid hk.symm
    show dictErase c0.1 (c0 :: (ctail ++ [(pid, completionOf pid)]))
        = ctail ++ [(pid, completionOf pid)]
    exact dictErase_cons_head c0 hforall
  · have hle : ¬ (cs ++ [(pid, completionOf pid)]).length > 100 := by
      simp [List.length_append]
      omega
    rw [if_neg hle, if_neg h100]

/-- Running a block of completing `execute` calls with globally fresh,
pairwise-distinct pids, starting from a store that retains the last 100 of
the pids completed so far. -/
theorem completions_run (pids : List Nat) :
    ∀ done : List Nat, (done ++ pids).Nodup →
      runOps ⟨[], entriesOf (lastN 100 done)⟩ (pids.map mkCompletion)
        = ⟨[], entriesOf (lastN 100 (done ++ pids))⟩ := by
  induction pids with
  | nil =>
      intro done _
      simp [runOps]
  | cons pid rest ih =>
      intro done h
      have hdone : done.Nodup := (List.nodup_append.mp h).1
      have hpid_done : pid ∉ done := by
        have hdisj := (List.nodup_append.mp h).2.2
        exact fun hmem => hdisj hmem (by simp)
      have hsub : ∀ q ∈ lastN 100 done, q ∈ done :=
        fun q hq => List.drop_subset _ done hq
      have hfresh : dictContains pid (entriesOf (lastN 100 done)) = false :=
        not_contains_entriesOf (fun hmem => hpid_done (hsub pid hmem))
      have hnd : ((entriesOf (lastN 100 done)).map Prod.fst).Nodup := by
        rw [entriesOf_keys]
        exact List.Nodup.sublist (List.drop_sublist _ _) hdone
      have hlen : (entriesOf (lastN 100 done)).length ≤ 100 := by
        simp [entriesOf, lastN]
        omega
      have hlen2 : (entriesOf (lastN 100 done)).length
          = (lastN 100 done).length := by
        simp [entriesOf]
      show runOps (applyOp ⟨[], entriesOf (lastN 100 done)⟩ (mkCompletion pid))
          (rest.map mkCompletion) = _
      rw [exec_completion_step _ pid hfresh hnd hlen]
      have hshape : (if (entriesOf (lastN 100 done)).length = 100
            then (entriesOf (lastN 100 done)).tail
              ++ [(pid, completionOf pid)]
            else entriesOf (lastN 100 done) ++ [(pid, completionOf pid)])
          = entriesOf (lastN 100 (done ++ [pid])) := by
      -- entriesOf commutes with tail and append; lastN steps by one
        rw [lastN_append_one 100 done pid (by omega)]
        rw [hlen2]
        by_cases hc : (lastN 100 done).length = 100
        · rw [if_pos hc, if_pos hc]
          simp [entriesOf, List.map_tail]
        · rw [if_neg hc, if_neg hc]
          simp [entriesOf]
      rw [hshape]
      have := ih (done ++ [pid]) (by simpa using h)
      simpa using this

/-- C6: after more than 100 completions with pairwise-distinct pids and no
intervening reads, the completed store holds exactly the records of the
100 most recently completed pids, in completion order — each insertion
past the bound evicted the then-oldest entry. -/
theorem completed_fifo_bound (pids : List Nat) (hnd : pids.Nodup)
    (hlen : pids.length > 100) :
    (runOps TMState.init (pids.map mkCompletion)).completed
      = entriesOf (pids.drop (pids.length - 100)) ∧
    (runOps TMState.init (pids.map mkCompletion)).completed.length = 100 := by
  have h0 : runOps TMState.init (pids.map mkCompletion)
      = ⟨[], entriesOf (lastN 100 pids)⟩ := by
    have := completions_run pids [] (by simpa using hnd)
    simpa [lastN, entriesOf] using this
  constructor
  · rw [h0]
    show entriesOf (lastN 100 pids)
        = entriesOf (List.drop (pids.length - 100) pids)
    rfl
  · rw [h0]
    show (entriesOf (lastN 100 pids)).length = 100
    simp [entriesOf, lastN]
    omega

/-- C6 witness: 101 completions with pids 0..100 (hypotheses discharged at
this concrete input). -/
theorem completed_fifo_bound_witness :
    (List.range 101).Nodup ∧ (List.range 101).length > 100 ∧
    ((runOps TMState.init ((List.range 101).map mkCompletion)).completed
        = entriesOf ((List.range 101).drop ((List.range 101).length - 100)) ∧
      (runOps TMState.init
        ((List.range 101).map mkCompletion)).completed.length = 100) :=
  ⟨List.nodup_range 101, by simp,
    completed_fifo_bound (List.range 101) (List.nodup_range 101) (by simp)⟩

end DesktopCommander
